import Mathlib

/-!
Verification development for the `ts-null-assert-codemod` repository
(single source file `src/main.ts`).

The TypeScript source is shallowly embedded:

* syntax trees (`ts-morph` `Node` objects) become an arena of `NodeData`
  records addressed by natural-number ids (`Tree`), carrying the fields the
  codemod reads: kind, text, start offset, parent link, children list, the
  identifier's symbol value declaration, and a declaration's initializer;
* `traverseNode` (main.ts lines 7-10) is embedded as the list of node ids in
  visit order (the callback is invoked on the node, then recursively on each
  child, left to right); a fuel argument makes the recursion structural —
  for fuel at least the tree height the list is the full pre-order;
* `findDeepestNode` (lines 12-25) folds that visit order with the same
  "overwrite `current` whenever the predicate holds" update as the source;
* `appendBang` (lines 31-44) and `fixDig` (lines 50-128) become pure
  functions threading the tree; mutation is a text update at one node id;
* the driver loop of `main` (lines 162-212) becomes a step function over a
  `DriverState`, with the project, diagnostic production and fix attempts
  abstracted behind an `Env` record (the spec treats the analyzer and the
  tree/text store as external collaborators).
-/

/-- Syntax-node kinds the codemod inspects (`ts.SyntaxKind` members used in
`src/main.ts`); every other kind is `other`. -/
inductive SKind where
  | elementAccessExpression
  | returnStatement
  | identifier
  | propertyAssignment
  | jsxAttribute
  | bindingElement
  | parameter
  | shorthandPropertyAssignment
  | nonNullExpression
  | other
deriving DecidableEq, Repr

/-- The fields of a `ts-morph` node that `src/main.ts` reads.  `parent` is
`getParent()`, `children` is `getChildren()`, `symbolDecl` is
`getSymbol()?.getValueDeclaration()` (meaningful on identifiers),
`initializer` is `getInitializer()` (meaningful on property assignments and
JSX attributes). -/
structure NodeData where
  kind : SKind
  text : String
  start : Nat
  parent : Option Nat
  children : List Nat
  symbolDecl : Option Nat
  initializer : Option Nat
deriving DecidableEq, Repr

/-- A parsed file: an arena of nodes addressed by index. -/
structure SyntaxTree where
  nodes : List NodeData
deriving DecidableEq, Repr

def SyntaxTree.data? (t : SyntaxTree) (id : Nat) : Option NodeData :=
  t.nodes[id]?

def childrenOf (t : SyntaxTree) (id : Nat) : List Nat :=
  ((t.data? id).map (·.children)).getD []

def kindOf (t : SyntaxTree) (id : Nat) : Option SKind :=
  (t.data? id).map (·.kind)

def textOf (t : SyntaxTree) (id : Nat) : String :=
  ((t.data? id).map (·.text)).getD ""

def parentOf (t : SyntaxTree) (id : Nat) : Option Nat :=
  (t.data? id).bind (·.parent)

def symbolDeclOf (t : SyntaxTree) (id : Nat) : Option Nat :=
  (t.data? id).bind (·.symbolDecl)

def initializerOf (t : SyntaxTree) (id : Nat) : Option Nat :=
  (t.data? id).bind (·.initializer)

/-- Model of `traverseNode` (main.ts lines 7-10): the callback visits the node, then
each child recursively, left to right.  We embed the traversal as the list of
node ids in callback-invocation order.  `fuel` bounds the recursion depth so
the definition is structural; for `fuel` at least the height of the tree this
is the complete pre-order. -/
def traverseNode (t : SyntaxTree) : Nat → Nat → List Nat
  | 0, _ => []
  | fuel + 1, id => id :: (childrenOf t id).flatMap (fun c => traverseNode t fuel c)

/-- Model of `findDeepestNode` (main.ts lines 12-25): walk the tree with
`traverseNode`, overwriting `current` with every node satisfying `where`;
the node kept at the end is the last satisfying node in visit order. -/
def findDeepestNode (t : SyntaxTree) (fuel root : Nat) (p : Nat → Bool) : Option Nat :=
  (traverseNode t fuel root).foldl (fun current n => if p n then some n else current) none

/-- Depth of a node: number of `parent` links above it (fuel-bounded). -/
def depthOf (t : SyntaxTree) : Nat → Nat → Nat
  | 0, _ => 0
  | fuel + 1, id =>
    match parentOf t id with
    | none => 0
    | some p => depthOf t fuel p + 1

/-- Concrete tree refuting "`findDeepestNode` returns the deepest satisfying
node": node 0 (root) has children 1 and 3; node 1 has child 2.  Nodes 2 and 3
both satisfy the predicate; node 2 is strictly deeper, but node 3 is visited
later, so node 3 is returned. -/
def cexTree : SyntaxTree :=
  ⟨[ { kind := .other, text := "r", start := 0, parent := none,
       children := [1, 3], symbolDecl := none, initializer := none },
     { kind := .other, text := "a", start := 0, parent := some 0,
       children := [2], symbolDecl := none, initializer := none },
     { kind := .identifier, text := "x", start := 1, parent := some 1,
       children := [], symbolDecl := none, initializer := none },
     { kind := .identifier, text := "y", start := 1, parent := some 0,
       children := [], symbolDecl := none, initializer := none } ]⟩

def cexPred (n : Nat) : Bool := n == 2 || n == 3

/-- JS `s.substring(0, s.length - 1)` (main.ts line 36): the text without its
final character (modelled on code points; the texts involved are ASCII). -/
def jsDropLastChar (s : String) : String :=
  (s.toList.take (s.toList.length - 1)).asString

/-- JS `String.prototype.trim`: strip whitespace from both ends (modelled on
code points). -/
def jsTrim (s : String) : String :=
  ((s.toList.dropWhile Char.isWhitespace).reverse.dropWhile Char.isWhitespace).reverse.asString

/-- JS check `t[t.length - 1] === ";"` (main.ts line 33): the last character
of the string is a semicolon (false for the empty string, where the index
yields `undefined`). -/
def lastCharIsSemi (s : String) : Bool :=
  s.toList.getLast? == some ';'

/-- The text rewrite performed by `appendBang` (main.ts lines 31-44): when
the trimmed text ends in a semicolon, drop the last character of the
*untrimmed* text and append `"!;"`; otherwise append `"!"`. -/
def appendBangText (s : String) : String :=
  if lastCharIsSemi (jsTrim s) then jsDropLastChar s ++ "!" ++ ";"
  else s ++ "!"

/-- The mutator edit as the specification words it (for comparison with
`appendBangText`): if the trimmed text ends with a statement terminator, the
assertion suffix is inserted immediately before that terminator, all other
characters of the original text staying in place; otherwise the suffix is
appended at the very end. -/
def specAppendBangText (s : String) : String :=
  let cs := s.toList
  let wsLen := (cs.reverse.takeWhile Char.isWhitespace).length
  if lastCharIsSemi (jsTrim s) then
    (cs.take (cs.length - wsLen - 1)).asString ++ "!" ++ ";"
      ++ (cs.drop (cs.length - wsLen)).asString
  else s ++ "!"

/-- Replace the text of one node (ts-morph `replaceWithText`); all other
nodes keep their data. -/
def setText (t : SyntaxTree) (id : Nat) (s : String) : SyntaxTree :=
  match t.nodes[id]? with
  | none => t
  | some nd => ⟨t.nodes.set id { nd with text := s }⟩

/-- Model of `appendBang` (main.ts lines 31-44): rewrite the node with its edited
text. -/
def appendBang (t : SyntaxTree) (id : Nat) : SyntaxTree :=
  setText t id (appendBangText (textOf t id))

/-- Model of `isParentNonNull` (main.ts lines 27-29). -/
def isParentNonNull (t : SyntaxTree) (id : Nat) : Bool :=
  match parentOf t id with
  | none => false
  | some p => kindOf t p == some SKind.nonNullExpression

/-- Model of `fixDig` (main.ts lines 50-128).  `fw` is the traversal fuel handed to
`findDeepestNode`; `fuel` bounds the recursion through value declarations
(the JS recursion is unbounded — a runaway recursion throws and the driver
catches the exception as a failed fix, matching `(false, t)` on fuel
exhaustion).  The result pairs the returned boolean with the possibly
mutated tree. -/
def fixDig (fw : Nat) : Nat → SyntaxTree → Nat → (SyntaxTree → Nat → Bool) → Bool × SyntaxTree
  | 0, t, _, _ => (false, t)
  | fuel + 1, t, root, baseCond =>
    match findDeepestNode t fw root
        (fun n => baseCond t n && (kindOf t n == some SKind.elementAccessExpression)) with
    | some elemAccessNode => (true, appendBang t elemAccessNode)
    | none =>
      match findDeepestNode t fw root
          (fun n => baseCond t n && (kindOf t n == some SKind.returnStatement)) with
      | some _ => (false, t)
      | none =>
        match findDeepestNode t fw root
            (fun n => baseCond t n && (kindOf t n == some SKind.identifier)) with
        | none => (false, t)
        | some identNode =>
          match symbolDeclOf t identNode with
          | none => (false, t)
          | some valueDec =>
            if kindOf t valueDec == some SKind.propertyAssignment
                || kindOf t valueDec == some SKind.jsxAttribute then
              match initializerOf t valueDec with
              | none => (false, t)
              | some ini => fixDig fw fuel t ini (fun t2 n => !isParentNonNull t2 n)
            else if kindOf t valueDec == some SKind.bindingElement then
              (true, appendBang t identNode)
            else if kindOf t valueDec == some SKind.parameter then
              (true, appendBang t identNode)
            else if kindOf t valueDec == some SKind.shorthandPropertyAssignment then
              (true, setText t valueDec (textOf t valueDec ++ ": " ++ textOf t valueDec ++ "!"))
            else
              fixDig fw fuel t valueDec (fun t2 n => !isParentNonNull t2 n)

/-- A tiny tree for witnesses: statement `const a = obj[0];` (node 0) whose
only child (node 1) is the element-access expression `obj[0]`. -/
def elemTree : SyntaxTree :=
  ⟨[ { kind := .other, text := "const a = obj[0];", start := 0, parent := none,
       children := [1], symbolDecl := none, initializer := none },
     { kind := .elementAccessExpression, text := "obj[0]", start := 10, parent := some 0,
       children := [], symbolDecl := none, initializer := none } ]⟩

/-- A tiny tree for witnesses: `return x;` (node 0, a return statement) with
child identifier `x` (node 1, no resolvable symbol). -/
def retTree : SyntaxTree :=
  ⟨[ { kind := .returnStatement, text := "return x;", start := 0, parent := none,
       children := [1], symbolDecl := none, initializer := none },
     { kind := .identifier, text := "x", start := 7, parent := some 0,
       children := [], symbolDecl := none, initializer := none } ]⟩

/-- A compiler diagnostic as the driver reads it (main.ts lines 166-180):
flattened message text, 1-based line number, and the source file's path
(`getSourceFile()?.getFilePath()`, which can be absent). The start offset is
consumed only inside the fix attempt, which the driver model abstracts. -/
structure Diag where
  msg : String
  line : Nat
  filePath : Option String
deriving DecidableEq, Repr

/-- The identity string `` `${msg}${dig.getLineNumber()}${filePath}` ``
(main.ts line 176): separator-less concatenation; a JS template literal
renders an undefined file path as the text "undefined". -/
def digHash (d : Diag) : String :=
  d.msg ++ toString d.line ++ (match d.filePath with | some p => p | none => "undefined")

/-- Substring containment, as JS `String.prototype.includes` (modelled on
code-point lists). -/
def listIncludes (sub : List Char) : List Char → Bool
  | [] => sub.isPrefixOf []
  | c :: cs => sub.isPrefixOf (c :: cs) || listIncludes sub cs

/-- The keyword test `msg.includes("undefined")` (main.ts line 178). -/
def includesUndefined (s : String) : Bool :=
  listIncludes "undefined".toList s.toList

/-- The external collaborators of the driver (analyzer + tree/text store):
a project state `σ`, diagnostics production (`getPreEmitDiagnostics`), a fix
attempt (`fixDig` on the diagnostic's source file, with exceptions folded
into a `false` result, main.ts lines 184-192), and persistence
(`project.save`). -/
structure Env (σ : Type) where
  getDiags : σ → List Diag
  tryFix : σ → Diag → Bool × σ
  save : σ → σ

/-- The mutable state of the `main` loop (main.ts lines 162-212): the
current diagnostic list, the cursor `i`, the `skippedDigs` set (as a list of
identity strings), the project, and whether the `for` loop has exited. -/
structure DriverState (σ : Type) where
  diagnostics : List Diag
  i : Nat
  skipped : List String
  proj : σ
  halted : Bool

/-- The `while` loop at main.ts lines 201-203: starting from cursor `i`,
advance while the *next* diagnostic exists and carries the same file path as
the fixed diagnostic.  `fuel` makes the recursion structural; the driver
calls it with `fuel = diagnostics.length`, which is enough for every run the
JS loop completes (when both the file path and the next entry are undefined
the JS `===` comparison holds forever and the JS loop diverges; the model
stops at the end of the list instead — a successful fix always has a real
source file, so the divergent case is unreachable in a run). -/
def skipSameFile (ds : List Diag) (fp : Option String) : Nat → Nat → Nat
  | 0, i => i
  | fuel + 1, i =>
    match ds[i + 1]? with
    | some d => if d.filePath == fp then skipSameFile ds fp fuel (i + 1) else i
    | none => i

/-- One iteration of the `for` loop of `main` (main.ts lines 166-212),
including the loop-condition check and the `i++` increment, paired with the
diagnostic on which a fix was attempted in this iteration (if any).  In the
save-and-reload branch the body sets `i = 0` and the `for` increment then
makes it 1 before the next condition check. -/
def stepA {σ : Type} (env : Env σ) (s : DriverState σ) : DriverState σ × Option Diag :=
  if s.halted then (s, none) else
  match s.diagnostics[s.i]? with
  | none => ({ s with halted := true }, none)
  | some dig =>
    if !includesUndefined dig.msg || s.skipped.contains (digHash dig) then
      ({ s with i := s.i + 1 }, none)
    else
      let res := env.tryFix s.proj dig
      if !res.1 then
        ({ s with skipped := digHash dig :: s.skipped, proj := res.2, i := s.i + 1 }, some dig)
      else
        let i2 := skipSameFile s.diagnostics dig.filePath s.diagnostics.length s.i
        if ((i2 : Int) == (s.diagnostics.length : Int) - 2)
            || (s.diagnostics[i2 + 1]?).isNone then
          let p2 := env.save res.2
          ({ diagnostics := env.getDiags p2, i := 1, skipped := s.skipped,
             proj := p2, halted := false }, some dig)
        else
          ({ s with proj := res.2, i := i2 + 1 }, some dig)

def step {σ : Type} (env : Env σ) (s : DriverState σ) : DriverState σ :=
  (stepA env s).1

def run {σ : Type} (env : Env σ) : Nat → DriverState σ → DriverState σ
  | 0, s => s
  | n + 1, s => run env n (step env s)

/-- The state on entry to the loop: diagnostics freshly fetched, cursor 0,
empty skip set (main.ts lines 162-166). -/
def initState {σ : Type} (env : Env σ) (p : σ) : DriverState σ :=
  { diagnostics := env.getDiags p, i := 0, skipped := [], proj := p, halted := false }

/-- A concrete environment family for runs: the project state counts how
many saves happened (the generation) and logs every fix attempt together
with the generation in which it occurred; `gens` gives the diagnostic list
of each generation and `fixable` decides whether an attempt succeeds. -/
def mkEnv (gens : List (List Diag)) (fixable : Diag → Bool) :
    Env (Nat × List (Nat × Diag)) :=
  { getDiags := fun p => gens.getD p.1 []
    tryFix := fun p d => (fixable d, (p.1, (p.1, d) :: p.2))
    save := fun p => (p.1 + 1, p.2) }

/-- Generation-0 diagnostic: an absent-value diagnostic the environment can
fix, in file a.ts. -/
def dGen1 : Diag :=
  { msg := "Object is possibly undefined.", line := 3, filePath := some "/p/a.ts" }

/-- First diagnostic of the post-save generation: absent-value, in b.ts. -/
def dFresh0 : Diag :=
  { msg := "Object is possibly undefined.", line := 1, filePath := some "/p/b.ts" }

/-- Second diagnostic of the post-save generation: message without the
keyword. -/
def dFresh1 : Diag :=
  { msg := "Unused variable.", line := 9, filePath := some "/p/c.ts" }

def envReload : Env (Nat × List (Nat × Diag)) :=
  mkEnv [[dGen1], [dFresh0, dFresh1]] (fun _ => true)

def sReload : DriverState (Nat × List (Nat × Diag)) :=
  initState envReload (0, [])

/-- Same-file diagnostics around an other-file one: f1, then f2, then f1
again, all in one generation. -/
def dF1a : Diag :=
  { msg := "Object is possibly undefined.", line := 1, filePath := some "/p/f1.ts" }

def dF2b : Diag :=
  { msg := "Type mismatch.", line := 2, filePath := some "/p/f2.ts" }

def dF1c : Diag :=
  { msg := "Object is possibly undefined.", line := 8, filePath := some "/p/f1.ts" }

def envSameFile : Env (Nat × List (Nat × Diag)) :=
  mkEnv [[dF1a, dF2b, dF1c]] (fun _ => true)

def sSameFile : DriverState (Nat × List (Nat × Diag)) :=
  initState envSameFile (0, [])

/-- Two diagnostics with distinct (message, line, file) triples but equal
identity strings: "undefined" + "12" + "3p" and "undefined1" + "2" + "3p". -/
def dColA : Diag := { msg := "undefined", line := 12, filePath := some "3p" }

def dColB : Diag := { msg := "undefined1", line := 2, filePath := some "3p" }

def envCol : Env (Nat × List (Nat × Diag)) :=
  mkEnv [[dColA, dColB]] (fun _ => false)

def sCol : DriverState (Nat × List (Nat × Diag)) :=
  initState envCol (0, [])

def sPermWitness : DriverState (Nat × List (Nat × Diag)) :=
  { diagnostics := [dGen1], i := 0, skipped := [digHash dGen1],
    proj := (0, []), halted := false }

theorem foldl_pick (p : Nat → Bool) :
    ∀ (l : List Nat) (acc : Option Nat),
      l.foldl (fun current n => if p n then some n else current) acc
        = match (l.filter p).getLast? with
          | some m => some m
          | none => acc := by
  intro l
  induction l with
  | nil => intro acc; simp
  | cons a l ih =>
    intro acc
    rw [List.foldl_cons, ih]
    by_cases hp : p a
    · rw [List.filter_cons_of_pos hp]
      cases hfl : l.filter p with
      | nil => simp [hp]
      | cons b fl =>
        rw [List.getLast?_cons_cons]
        obtain ⟨m, hm⟩ :=
          Option.isSome_iff_exists.1 (List.getLast?_isSome.2 (List.cons_ne_nil b fl))
        rw [hm]
    · rw [List.filter_cons_of_neg hp, if_neg hp]

/-- The function `findDeepestNode` computes the last node of the traversal order
satisfying the predicate. -/
theorem findDeepestNode_eq_getLast_filter (t : SyntaxTree) (fuel root : Nat) (p : Nat → Bool) :
    findDeepestNode t fuel root p = ((traverseNode t fuel root).filter p).getLast? := by
  rw [findDeepestNode, foldl_pick]
  cases ((traverseNode t fuel root).filter p).getLast? <;> rfl

theorem findDeepestNode_of_exists {t : SyntaxTree} {fuel root : Nat} {p : Nat → Bool}
    (h : ∃ n ∈ traverseNode t fuel root, p n = true) :
    ∃ m, findDeepestNode t fuel root p = some m
      ∧ m ∈ traverseNode t fuel root ∧ p m = true := by
  rw [findDeepestNode_eq_getLast_filter]
  obtain ⟨n, hmem, hp⟩ := h
  have hne : (traverseNode t fuel root).filter p ≠ [] := by
    intro heq
    have : n ∈ (traverseNode t fuel root).filter p := List.mem_filter.2 ⟨hmem, hp⟩
    rw [heq] at this
    exact absurd this (List.not_mem_nil n)
  obtain ⟨m, hm⟩ := Option.isSome_iff_exists.1 (List.getLast?_isSome.2 hne)
  refine ⟨m, hm, ?_⟩
  have hmf : m ∈ (traverseNode t fuel root).filter p := by
    have := List.getLast?_eq_getLast _ hne
    rw [this] at hm
    injection hm with hm
    rw [← hm]
    exact List.getLast_mem hne
  exact ⟨(List.mem_filter.1 hmf).1, (List.mem_filter.1 hmf).2⟩

theorem findDeepestNode_of_forall {t : SyntaxTree} {fuel root : Nat} {p : Nat → Bool}
    (h : ∀ n ∈ traverseNode t fuel root, p n = false) :
    findDeepestNode t fuel root p = none := by
  rw [findDeepestNode_eq_getLast_filter]
  have : (traverseNode t fuel root).filter p = [] := by
    rw [List.filter_eq_nil_iff]
    intro a ha
    simp [h a ha]
  rw [this]
  rfl

/-- C5 counterexample: `findDeepestNode` is not "the deepest satisfying
node".  On `cexTree` with `cexPred`, node 2 satisfies the predicate and lies
strictly deeper than the returned node 3: the deeper node is passed over in
favour of a later, shallower one. -/
theorem c5_deepest_counterexample :
    findDeepestNode cexTree 10 0 cexPred = some 3
      ∧ cexPred 2 = true
      ∧ 2 ∈ traverseNode cexTree 10 0
      ∧ depthOf cexTree 10 3 < depthOf cexTree 10 2 := by
  decide

/-- C5 (amended): within each tier the node `findDeepestNode` selects is the
*last* node in the depth-first, parent-before-children traversal order that
satisfies the predicate — not in general the most deeply nested one (along a
single ancestor chain the last visited node is the deepest, but a
later-visited shallower node wins over an earlier deeper one). -/
theorem c5_last_in_traversal_order (t : SyntaxTree) (fuel root : Nat) (p : Nat → Bool) :
    findDeepestNode t fuel root p = ((traverseNode t fuel root).filter p).getLast? :=
  findDeepestNode_eq_getLast_filter t fuel root p

/-- C6 counterexample: on the node text "x; " (trimmed text ends with the
terminator, but the raw text carries trailing whitespace) the code drops the
trailing space — not all characters of the original text are preserved, and
the assertion is not inserted immediately before the terminator. -/
theorem c6_trailing_trivia_counterexample :
    appendBangText "x; " = "x;!;"
      ∧ specAppendBangText "x; " = "x!; "
      ∧ appendBangText "x; " ≠ specAppendBangText "x; " := by
  refine ⟨by decide, by decide, by decide⟩

/-- C6 (amended): if the trimmed node text ends with a statement terminator
the mutator drops the final character of the *untrimmed* text and appends
"!;" — which inserts the assertion immediately before the terminator with
every other character preserved exactly when the text has no trailing
whitespace; otherwise the assertion is appended at the very end of the
text. -/
theorem c6_append_bang_edit (s : String) :
    (lastCharIsSemi (jsTrim s) = true →
        appendBangText s = jsDropLastChar s ++ "!" ++ ";")
    ∧ (lastCharIsSemi (jsTrim s) = false → appendBangText s = s ++ "!")
    ∧ (s.toList.reverse.takeWhile Char.isWhitespace = [] →
        appendBangText s = specAppendBangText s) := by
  refine ⟨fun h => ?_, fun h => ?_, fun h => ?_⟩
  · rw [appendBangText, if_pos h]
  · rw [appendBangText, if_neg (by simp [h])]
  · rw [appendBangText, specAppendBangText]
    simp only [h, List.length_nil, Nat.sub_zero]
    by_cases hsemi : lastCharIsSemi (jsTrim s) = true
    · rw [if_pos hsemi, if_pos hsemi, jsDropLastChar]
      rw [List.drop_length]
      apply String.ext
      simp [String.data_append, List.asString]
    · rw [if_neg hsemi, if_neg hsemi]

theorem c6_append_bang_edit_witness :
    appendBangText "const a = b;" = jsDropLastChar "const a = b;" ++ "!" ++ ";"
      ∧ appendBangText "obj.k" = "obj.k" ++ "!"
      ∧ appendBangText "x;" = specAppendBangText "x;" :=
  ⟨(c6_append_bang_edit "const a = b;").1 (by decide),
   (c6_append_bang_edit "obj.k").2.1 (by decide),
   (c6_append_bang_edit "x;").2.2 (by decide)⟩

/-- C3: whenever some node of the traversal satisfies the target predicate
and is an element-access expression, `fixDig` succeeds and its one mutation
(`appendBang`) lands on an element-access node satisfying the predicate —
element access is preferred over the return-statement and identifier
tiers. -/
theorem c3_element_access_preferred (t : SyntaxTree) (fw fuel root : Nat)
    (bc : SyntaxTree → Nat → Bool)
    (hex : ∃ n ∈ traverseNode t fw root,
      (bc t n && (kindOf t n == some SKind.elementAccessExpression)) = true) :
    ∃ m, (kindOf t m == some SKind.elementAccessExpression) = true
      ∧ bc t m = true
      ∧ fixDig fw (fuel + 1) t root bc = (true, appendBang t m) := by
  obtain ⟨m, hfind, hmem, hp⟩ := findDeepestNode_of_exists hex
  refine ⟨m, ?_, ?_, ?_⟩
  · exact (Bool.and_eq_true _ _ ▸ hp).2
  · exact (Bool.and_eq_true _ _ ▸ hp).1
  · simp only [fixDig, hfind]

theorem c3_element_access_preferred_witness :
    fixDig 3 1 elemTree 0 (fun _ n => n == 1) = (true, appendBang elemTree 1) := by
  obtain ⟨m, hk, hb, hfix⟩ :=
    c3_element_access_preferred elemTree 3 0 0 (fun _ n => n == 1) (by decide)
  have hm : m = 1 := by simpa using hb
  rw [hm] at hfix
  exact hfix

/-- C4: when no node of the traversal satisfies the predicate as an
element-access expression but some node satisfies it as a return statement,
`fixDig` returns `false` and leaves the tree exactly as it was. -/
theorem c4_return_statement_unfixable (t : SyntaxTree) (fw fuel root : Nat)
    (bc : SyntaxTree → Nat → Bool)
    (hno : ∀ n ∈ traverseNode t fw root,
      (bc t n && (kindOf t n == some SKind.elementAccessExpression)) = false)
    (hret : ∃ n ∈ traverseNode t fw root,
      (bc t n && (kindOf t n == some SKind.returnStatement)) = true) :
    fixDig fw (fuel + 1) t root bc = (false, t) := by
  have h1 := findDeepestNode_of_forall hno
  obtain ⟨m, hfind, hmem, hp⟩ := findDeepestNode_of_exists hret
  simp only [fixDig, h1, hfind]

theorem c4_return_statement_unfixable_witness :
    fixDig 3 1 retTree 0 (fun _ _ => true) = (false, retTree) :=
  c4_return_statement_unfixable retTree 3 0 0 (fun _ _ => true) (by decide) (by decide)

/-- C9: a failed resolution never mutates — whenever `fixDig` returns
`false`, at any escalation depth, the resulting tree is exactly the input
tree. -/
theorem c9_failure_leaves_tree_unchanged (fw : Nat) :
    ∀ (fuel : Nat) (t : SyntaxTree) (root : Nat) (bc : SyntaxTree → Nat → Bool),
      (fixDig fw fuel t root bc).1 = false → (fixDig fw fuel t root bc).2 = t := by
  intro fuel
  induction fuel with
  | zero => intro t root bc _; rfl
  | succ fuel ih =>
    intro t root bc
    simp only [fixDig]
    split
    · intro h; simp at h
    · split
      · intro _; rfl
      · split
        · intro _; rfl
        · split
          · intro _; rfl
          · split
            · split
              · intro _; rfl
              · intro h; exact ih t _ _ h
            · split
              · intro h; simp at h
              · split
                · intro h; simp at h
                · split
                  · intro h; simp at h
                  · intro h; exact ih t _ _ h

theorem c9_failure_leaves_tree_unchanged_witness :
    (fixDig 3 2 retTree 0 (fun _ _ => true)).2 = retTree :=
  c9_failure_leaves_tree_unchanged 3 2 retTree 0 (fun _ _ => true) (by decide)

/-- C1 fails on the code: a run in which generation 0 holds one fixable
absent-value diagnostic and the post-save generation is `[dFresh0, dFresh1]`
exits with `dFresh0` — an absent-value diagnostic of the last-fetched list —
neither in the skip set nor filtered, because after `i = 0; ... i++` the
fresh list is rescanned from index 1 and the run then falls off the end of
the list.  The final pass did contain a Fixing transition (the attempt log
is non-empty), yet the run ended. -/
theorem c1_exit_without_fixed_point :
    (run envReload 3 sReload).halted = true
      ∧ dFresh0 ∈ (run envReload 3 sReload).diagnostics
      ∧ includesUndefined dFresh0.msg = true
      ∧ digHash dFresh0 ∉ (run envReload 3 sReload).skipped
      ∧ (0, dGen1) ∈ (run envReload 3 sReload).proj.2 := by
  decide

/-- C2 fails on the code: after the persist-and-reload transition the fresh
list is `[dFresh0, dFresh1]` and the cursor stands at index 1 — the loop
body's `i = 0` is immediately followed by the `for` increment — so scanning
resumes from the *second* element and `dFresh0` is never attempted: the
whole run's attempt log holds only the generation-0 fix. -/
theorem c2_reload_resumes_at_second_element :
    (run envReload 1 sReload).diagnostics = [dFresh0, dFresh1]
      ∧ (run envReload 1 sReload).i = 1
      ∧ includesUndefined dFresh0.msg = true
      ∧ (run envReload 3 sReload).halted = true
      ∧ (run envReload 3 sReload).proj.2 = [(0, dGen1)] := by
  decide

/-- C7 fails on the code: after successfully fixing `dF1a` the driver only
advances past the *contiguous* run of same-file diagnostics; `dF1c`, which
targets the same file f1 but appears after the other-file `dF2b`, is still
attempted in the same generation 0 (both attempts are logged with
generation 0, i.e. before any save). -/
theorem c7_later_same_file_diagnostic_attempted :
    dF1a.filePath = dF1c.filePath
      ∧ (0, dF1a) ∈ (run envSameFile 4 sSameFile).proj.2
      ∧ (0, dF1c) ∈ (run envSameFile 4 sSameFile).proj.2 := by
  decide

/-- C10: the separator-less concatenation collides — `dColA` and `dColB`
differ in message and line yet hash identically, and in a run where the
fix of `dColA` fails (putting its identity in the skip set) the driver
skips `dColB` without ever attempting it: the attempt log of the whole run
holds only `dColA`. -/
theorem c10_hash_collision_conflates_identities :
    digHash dColA = digHash dColB
      ∧ dColA.msg ≠ dColB.msg
      ∧ dColA.line ≠ dColB.line
      ∧ (run envCol 3 sCol).halted = true
      ∧ (run envCol 3 sCol).proj.2 = [(0, dColA)] := by
  decide

/-- C7 (amended): after a successful fix the driver advances the cursor past
exactly the maximal *contiguous* run of immediately following diagnostics
whose file equals the fixed diagnostic's file: every position strictly
between the old cursor and the new one holds a same-file diagnostic, and the
entry just past the new cursor (when it exists) is of a different file.
Same-file diagnostics separated by an other-file diagnostic are not skipped
(they stay reachable in the same generation); when the diagnostic list
groups entries by file this contiguous run is all remaining same-file
entries. -/
theorem c7_skip_contiguous_same_file_run (ds : List Diag) (fp : Option String) :
    ∀ (fuel i : Nat), ds.length ≤ fuel + i →
      i ≤ skipSameFile ds fp fuel i
      ∧ (∀ k, i < k → k ≤ skipSameFile ds fp fuel i →
          ∃ d, ds[k]? = some d ∧ d.filePath = fp)
      ∧ (∀ d, ds[skipSameFile ds fp fuel i + 1]? = some d → ¬ d.filePath = fp) := by
  intro fuel
  induction fuel with
  | zero =>
    intro i hle
    simp only [skipSameFile]
    refine ⟨Nat.le_refl _, ?_, ?_⟩
    · intro k h1 h2
      exact absurd (Nat.lt_of_lt_of_le h1 h2) (Nat.lt_irrefl i)
    · intro d hd
      obtain ⟨hlt, -⟩ := List.getElem?_eq_some_iff.1 hd
      omega
  | succ fuel ih =>
    intro i hle
    simp only [skipSameFile]
    cases hnext : ds[i + 1]? with
    | none =>
      refine ⟨Nat.le_refl _, ?_, ?_⟩
      · intro k h1 h2
        exact absurd (Nat.lt_of_lt_of_le h1 h2) (Nat.lt_irrefl i)
      · intro d hd
        rw [hnext] at hd
        cases hd
    | some d =>
      dsimp only
      by_cases hfp : (d.filePath == fp) = true
      · rw [if_pos hfp]
        have hrec := ih (i + 1) (by omega)
        refine ⟨by omega, ?_, hrec.2.2⟩
        intro k h1 h2
        by_cases hk : k = i + 1
        · subst hk
          exact ⟨d, hnext, eq_of_beq hfp⟩
        · exact hrec.2.1 k (by omega) h2
      · rw [if_neg hfp]
        refine ⟨Nat.le_refl _, ?_, ?_⟩
        · intro k h1 h2
          exact absurd (Nat.lt_of_lt_of_le h1 h2) (Nat.lt_irrefl i)
        · intro d2 hd2
          rw [hnext] at hd2
          injection hd2 with hd2
          subst hd2
          intro heq
          exact hfp (beq_iff_eq.2 heq)

theorem c7_skip_contiguous_same_file_run_witness :
    skipSameFile [dF1a, dF1c, dF2b] (some "/p/f1.ts") 3 0 = 1
      ∧ (∃ d, ([dF1a, dF1c, dF2b])[1]? = some d ∧ d.filePath = some "/p/f1.ts")
      ∧ (∀ d, ([dF1a, dF1c, dF2b])[skipSameFile [dF1a, dF1c, dF2b] (some "/p/f1.ts") 3 0 + 1]?
            = some d → ¬ d.filePath = some "/p/f1.ts") := by
  have h := c7_skip_contiguous_same_file_run [dF1a, dF1c, dF2b] (some "/p/f1.ts") 3 0 (by decide)
  exact ⟨by decide, h.2.1 1 (by decide) (by decide), h.2.2⟩

theorem stepA_skipped_mono {σ : Type} (env : Env σ) (s : DriverState σ) :
    ∀ h ∈ s.skipped, h ∈ ((stepA env s).1).skipped := by
  intro h hmem
  simp only [stepA]
  split
  · exact hmem
  · split
    · exact hmem
    · split
      · exact hmem
      · split
        · exact List.mem_cons_of_mem _ hmem
        · split
          · exact hmem
          · exact hmem

theorem stepA_attempt_not_skipped {σ : Type} (env : Env σ) (s : DriverState σ) (d : Diag)
    (hat : (stepA env s).2 = some d) : digHash d ∉ s.skipped := by
  intro hmem
  simp only [stepA] at hat
  split at hat
  · cases hat
  · split at hat
    · cases hat
    · rename_i dig heq
      split at hat
      · cases hat
      · rename_i hguard
        have hdig : dig = d := by
          split at hat
          · injection hat with h
          · split at hat
            · injection hat with h
            · injection hat with h
        subst hdig
        apply hguard
        have hc : s.skipped.contains (digHash dig) = true :=
          List.elem_eq_true_of_mem hmem
        rw [hc]
        simp

/-- C8: once a diagnostic identity — the (messageText, lineNumber,
sourceFileId) triple — has entered the skip set, it is never removed by any
number of further loop iterations, and no diagnostic carrying that identity
triple is ever the subject of a later fix attempt in the same run. -/
theorem c8_skipset_is_permanent {σ : Type} (env : Env σ) (s : DriverState σ) (a : Diag)
    (hmem : digHash a ∈ s.skipped) (n : Nat) :
    digHash a ∈ (run env n s).skipped
      ∧ ∀ d : Diag, d.msg = a.msg → d.line = a.line → d.filePath = a.filePath →
          (stepA env (run env n s)).2 ≠ some d := by
  induction n generalizing s with
  | zero =>
    refine ⟨hmem, ?_⟩
    intro d h1 h2 h3 hat
    have hh : digHash d = digHash a := by rw [digHash, digHash, h1, h2, h3]
    exact stepA_attempt_not_skipped env s d hat (by rw [hh]; exact hmem)
  | succ n ih =>
    exact ih (step env s) (stepA_skipped_mono env s _ hmem)

theorem c8_skipset_is_permanent_witness :
    digHash dGen1 ∈ (run envReload 1 sPermWitness).skipped
      ∧ (stepA envReload (run envReload 1 sPermWitness)).2 ≠ some dGen1 :=
  ⟨(c8_skipset_is_permanent envReload sPermWitness dGen1 (by decide) 1).1,
   (c8_skipset_is_permanent envReload sPermWitness dGen1 (by decide) 1).2 dGen1 rfl rfl rfl⟩
